import Mathlib

/-!
Verification development for a credential lifecycle manager and identifier
resolver (a Node.js service wrapping a remote directory API).

The token manager (`tokenManager.js`) is embedded as pure functions over an
explicit store; network effects (the OAuth refresh exchange and the directory
lookups) are supplied as oracle functions, and JWT payload decoding (a
composition of base64 decoding and JSON parsing in the source) is supplied as
a decode function returning the claims on success and `none` on failure.
JavaScript truthiness on strings (empty string is falsy) is modelled by
`truthy`.  Timestamps are integers (milliseconds), as in the source's
`Date.now()` arithmetic.
-/

/-- JavaScript truthiness for an optional string: `undefined`/`null` and the
empty string are falsy. -/
def truthy : Option String → Option String
  | some s => if s = "" then none else some s
  | none => none

/-- Claims embedded in a JWT payload, as read by the source: `oid`, `sub`
(cache-key candidates) and `exp` (expiry in seconds). -/
structure JwtClaims where
  oid : Option String := none
  sub : Option String := none
  exp : Option Int := none
deriving Repr, DecidableEq

/-- Embeds `getUserIdFromToken`: decode the JWT payload and return
`decoded.oid || decoded.sub || 'default-user'`; a decode failure also yields
the sentinel `"default-user"`. -/
def getUserIdFromToken (decode : String → Option JwtClaims) (token : String) : String :=
  match decode token with
  | none => "default-user"
  | some c => ((truthy c.oid).orElse (fun _ => truthy c.sub)).getD "default-user"

/-- Embeds `isTokenExpired`: decode the payload, compare `now >= exp * 1000`;
a decode failure (or a missing `exp`, whose JavaScript `NaN` comparison is
false) yields `false`. -/
def isTokenExpired (decode : String → Option JwtClaims) (now : Int) (token : String) : Bool :=
  match decode token with
  | none => false
  | some c =>
    match c.exp with
    | none => false
    | some e => decide (now ≥ e * 1000)

/-- Body of a successful response from the OAuth refresh endpoint. -/
structure RefreshResponse where
  access_token : String
  refresh_token : Option String := none
  expires_in : Int
deriving Repr, DecidableEq

/-- Value returned by `refreshAccessToken` on success. -/
structure RefreshedTokens where
  accessToken : String
  refreshToken : String
  expiresIn : Int
deriving Repr, DecidableEq

/-- Embeds `refreshAccessToken`: POST to the token endpoint (the `oracle`);
on success return the new access token, `response.data.refresh_token ||
refreshToken` (falling back to the old refresh token), and `expires_in`; on
failure throw `"Failed to refresh access token"`. -/
def refreshAccessToken (oracle : String → Except String RefreshResponse)
    (refreshToken : String) : Except String RefreshedTokens :=
  match oracle refreshToken with
  | .ok r =>
    .ok { accessToken := r.access_token,
          refreshToken := (truthy r.refresh_token).getD refreshToken,
          expiresIn := r.expires_in }
  | .error _ => .error "Failed to refresh access token"

/-- Per-identity record held in the user token cache. -/
structure CredentialRecord where
  accessToken : String
  refreshToken : String
  expiresAt : Int
deriving Repr, DecidableEq

/-- The user token cache: identity-keyed association list mirroring the
JavaScript `Map` (insertion order, unique keys). -/
abbrev TokenMap := List (String × CredentialRecord)

/-- `Map.prototype.get`. -/
def cacheGet (m : TokenMap) (k : String) : Option CredentialRecord :=
  match m with
  | [] => none
  | (k', v) :: rest => if k' = k then some v else cacheGet rest k

/-- `Map.prototype.set`: replace in place if the key exists, else append. -/
def cacheSet (m : TokenMap) (k : String) (v : CredentialRecord) : TokenMap :=
  match m with
  | [] => [(k, v)]
  | (k', v') :: rest => if k' = k then (k, v) :: rest else (k', v') :: cacheSet rest k v

/-- `Map.prototype.delete`. -/
def cacheDelete (m : TokenMap) (k : String) : TokenMap :=
  match m with
  | [] => []
  | (k', v') :: rest => if k' = k then rest else (k', v') :: cacheDelete rest k

/-- The credential store: the in-memory map plus its durable (file) mirror. -/
structure Store where
  mem : TokenMap
  durable : TokenMap
deriving Repr, DecidableEq

/-- Embeds `saveTokenCache`: write-through of the whole in-memory map to the
durable file. -/
def saveTokenCache (st : Store) : Store :=
  { st with durable := st.mem }

/-- The parts of the incoming request that `getDelegatedToken` reads. -/
structure Request where
  authorization : Option String := none
  xRefreshToken : Option String := none
  bodyAccessToken : Option String := none
  bodyRefreshToken : Option String := none
deriving Repr, DecidableEq

/-- Does the second character list begin with the first (the pattern)? -/
def listStartsWith : List Char → List Char → Bool
  | [], _ => true
  | _ :: _, [] => false
  | a :: as, b :: bs => a == b && listStartsWith as bs

/-- `s.startsWith(p)` over the underlying character lists. -/
def strStartsWith (s p : String) : Bool :=
  listStartsWith p.toList s.toList

/-- `s.substring(n)`: drop the first `n` characters. -/
def strDropChars (s : String) (n : Nat) : String :=
  String.mk (s.toList.drop n)

/-- Access-token extraction in `getDelegatedToken`: the `Authorization`
header (with or without the `Bearer ` scheme), falling back to
`req.body.accessToken` when the header yields nothing truthy. -/
def extractAccessToken (req : Request) : Option String :=
  let fromHeader : Option String :=
    match truthy req.authorization with
    | some a => if strStartsWith a "Bearer " then some (strDropChars a 7) else some a
    | none => none
  match truthy fromHeader with
  | some a => some a
  | none => truthy req.bodyAccessToken

/-- Refresh-token extraction: `req.headers['x-refresh-token'] ||
req.body?.refreshToken`. -/
def extractRefreshToken (req : Request) : Option String :=
  (truthy req.xRefreshToken).orElse (fun _ => truthy req.bodyRefreshToken)

deriving instance DecidableEq for Except

/-- Outcome of a `getDelegatedToken` call: the returned value (`.ok none`
for a `null` return, `.error` for a throw), the final store, and the list of
refresh tokens sent to the refresh endpoint. -/
structure DtOutcome where
  result : Except String (Option String)
  store : Store
  refreshCalls : List String
deriving Repr, DecidableEq

/-- Embeds the tail of `getDelegatedToken` (the block reached with no usable
cached record): if a refresh token was supplied, either cache the supplied
pair with a fixed 55-minute horizon (access token not expired) or refresh and
cache the result (access token expired); otherwise return the supplied access
token unchanged. -/
def dtCacheNew (oracle : String → Except String RefreshResponse) (now : Int)
    (accessToken userId : String) (providedTokenExpired : Bool)
    (refreshToken? : Option String) (st : Store) : DtOutcome :=
  match refreshToken? with
  | some rt =>
    if !providedTokenExpired then
      let rec1 : CredentialRecord :=
        { accessToken := accessToken, refreshToken := rt,
          expiresAt := now + 55 * 60 * 1000 }
      { result := .ok (some accessToken),
        store := saveTokenCache { st with mem := cacheSet st.mem userId rec1 },
        refreshCalls := [] }
    else
      match refreshAccessToken oracle rt with
      | .ok r =>
        let rec1 : CredentialRecord :=
          { accessToken := r.accessToken, refreshToken := r.refreshToken,
            expiresAt := now + (r.expiresIn - 60) * 1000 }
        { result := .ok (some r.accessToken),
          store := saveTokenCache { st with mem := cacheSet st.mem userId rec1 },
          refreshCalls := [rt] }
      | .error e => { result := .error e, store := st, refreshCalls := [rt] }
  | none => { result := .ok (some accessToken), store := st, refreshCalls := [] }

/-- Embeds the cache-consulting block of `getDelegatedToken`: a still-valid
cached record is returned as is; an expired cached record is refreshed with
the supplied refresh token if any, else the cached one, evicting the entry
when the refresh fails; with no cached record (or no usable refresh token)
control falls through to `dtCacheNew`. -/
def dtAfterImmediate (oracle : String → Except String RefreshResponse) (now : Int)
    (accessToken userId : String) (providedTokenExpired : Bool)
    (refreshToken? : Option String) (st : Store) : DtOutcome :=
  match cacheGet st.mem userId with
  | some cachedData =>
    if now < cachedData.expiresAt then
      { result := .ok (some cachedData.accessToken), store := st, refreshCalls := [] }
    else
      match refreshToken?.orElse (fun _ => truthy (some cachedData.refreshToken)) with
      | some tokenToUse =>
        match refreshAccessToken oracle tokenToUse with
        | .ok r =>
          let rec1 : CredentialRecord :=
            { accessToken := r.accessToken, refreshToken := r.refreshToken,
              expiresAt := now + (r.expiresIn - 60) * 1000 }
          { result := .ok (some r.accessToken),
            store := saveTokenCache { st with mem := cacheSet st.mem userId rec1 },
            refreshCalls := [tokenToUse] }
        | .error e =>
          { result := .error e,
            store := saveTokenCache { st with mem := cacheDelete st.mem userId },
            refreshCalls := [tokenToUse] }
      | none =>
        dtCacheNew oracle now accessToken userId providedTokenExpired refreshToken? st
  | none =>
    dtCacheNew oracle now accessToken userId providedTokenExpired refreshToken? st

/-- Embeds `getDelegatedToken`: extract the tokens from the request; with no
access token return `null`; with an expired access token and a supplied
refresh token, refresh immediately (writing the result through to the store)
and propagate a refresh failure; otherwise consult the cache
(`dtAfterImmediate`). -/
def getDelegatedToken (decode : String → Option JwtClaims)
    (oracle : String → Except String RefreshResponse)
    (now : Int) (req : Request) (st : Store) : DtOutcome :=
  match extractAccessToken req with
  | none => { result := .ok none, store := st, refreshCalls := [] }
  | some accessToken =>
    let refreshToken? := extractRefreshToken req
    let userId := getUserIdFromToken decode accessToken
    let providedTokenExpired := isTokenExpired decode now accessToken
    match providedTokenExpired, refreshToken? with
    | true, some rt =>
      match refreshAccessToken oracle rt with
      | .ok r =>
        let rec1 : CredentialRecord :=
          { accessToken := r.accessToken, refreshToken := r.refreshToken,
            expiresAt := now + (r.expiresIn - 60) * 1000 }
        { result := .ok (some r.accessToken),
          store := saveTokenCache { st with mem := cacheSet st.mem userId rec1 },
          refreshCalls := [rt] }
      | .error e => { result := .error e, store := st, refreshCalls := [rt] }
    | true, none => dtAfterImmediate oracle now accessToken userId true none st
    | false, rt? => dtAfterImmediate oracle now accessToken userId false rt? st

/-!
Identifier resolver (`tools.idResolver.js`).  The `GraphClient` calls are
supplied through a `GraphEnv` of typed endpoint oracles; each resolver
returns its result together with the number of lookup (network) calls it
issued, so that "zero lookup calls" claims are directly statable.
-/

/-- Hex digit as matched by the canonical-ID regular expression with the
case-insensitive flag. -/
def isHexDigit (c : Char) : Bool :=
  (decide ('0' ≤ c) && decide (c ≤ '9')) ||
  (decide ('a' ≤ c) && decide (c ≤ 'f')) ||
  (decide ('A' ≤ c) && decide (c ≤ 'F'))

/-- One dash-separated group of the canonical ID: exactly `n` hex digits. -/
def guidGroup (n : Nat) (s : List Char) : Bool :=
  s.length == n && s.all isHexDigit

/-- Split a character list at every dash. -/
def splitOnDash : List Char → List (List Char)
  | [] => [[]]
  | c :: cs =>
    if c = '-' then [] :: splitOnDash cs
    else
      match splitOnDash cs with
      | g :: gs => (c :: g) :: gs
      | [] => [[c]]

/-- Embeds the test against
`/^[0-9a-f]\x7b8\x7d-[0-9a-f]\x7b4\x7d-[0-9a-f]\x7b4\x7d-[0-9a-f]\x7b4\x7d-[0-9a-f]\x7b12\x7d$/i`:
five dash-separated groups of 8-4-4-4-12 hex digits. -/
def isGuid (s : String) : Bool :=
  match splitOnDash s.toList with
  | [a, b, c, d, e] =>
    guidGroup 8 a && guidGroup 4 b && guidGroup 4 c && guidGroup 4 d && guidGroup 12 e
  | _ => false

/-- A team as returned by the directory listing endpoints. -/
structure Team where
  id : String
  displayName : Option String := none
deriving Repr, DecidableEq

/-- A user as returned by the directory user queries. -/
structure GraphUser where
  id : String
deriving Repr, DecidableEq

/-- An online meeting as returned by the meeting listing: subject, the
organizer's user id (the source's
`m.participants?.organizer?.identity?.user?.id` chain flattened), and the
parsed start time in milliseconds (`none` for an absent or empty
`startDateTime`). -/
structure Meeting where
  id : String
  subject : Option String := none
  organizerUserId : Option String := none
  startDateTime : Option Int := none
deriving Repr, DecidableEq

/-- Typed oracles for the `GraphClient.get` endpoints the resolver uses.
Each `Except` error is a thrown request failure; an `Option` payload of
`none` stands for a response without a `value` array. -/
structure GraphEnv where
  joinedTeams : Except String (Option (List Team))
  allTeams : Except String (Option (List Team))
  usersByMail : String → Except String (Option (List GraphUser))
  usersByDisplayName : String → Except String (Option (List GraphUser))
  userByPrincipalName : String → Except String GraphUser
  onlineMeetings : Except String (Option (List Meeting))

/-- Result of a resolver call: the returned/thrown value plus the number of
lookup (network) calls issued. -/
structure LookupResult (α : Type) where
  res : Except String α
  calls : Nat
deriving Repr, DecidableEq

/-- `toLowerCase` over the underlying character list (ASCII case folding,
via `Char.toLower`). -/
def strLower (s : String) : String :=
  String.mk (s.toList.map Char.toLower)

/-- The display-name comparison
`t.displayName?.toLowerCase() === name.toLowerCase()` (an absent display
name never matches). -/
def nameMatches (name : String) (dn : Option String) : Bool :=
  match dn with
  | some d => strLower d == strLower name
  | none => false

/-- Embeds `findTeamIdByName`: search `/me/joinedTeams` for a
case-insensitive display-name match, then best-effort `/teams` (errors from
the second call are swallowed), returning `null` when neither matches;
a failure of the first call is rethrown as `Failed to find team: ...`. -/
def findTeamIdByName (env : GraphEnv) (teamName : String) : LookupResult (Option String) :=
  match env.joinedTeams with
  | .error e => { res := .error ("Failed to find team: " ++ e), calls := 1 }
  | .ok v =>
    let hit : Option Team :=
      match v with
      | some teams => teams.find? (fun t => nameMatches teamName t.displayName)
      | none => none
    match hit with
    | some t => { res := .ok (some t.id), calls := 1 }
    | none =>
      match env.allTeams with
      | .error _ => { res := .ok none, calls := 2 }
      | .ok v2 =>
        let hit2 : Option Team :=
          match v2 with
          | some teams => teams.find? (fun t => nameMatches teamName t.displayName)
          | none => none
        match hit2 with
        | some t => { res := .ok (some t.id), calls := 2 }
        | none => { res := .ok none, calls := 2 }

/-- Embeds the display-name / principal-name tail of `findUserId` (reached
after the optional email query made `k` calls): query by display-name
beginning, then try the string as a directly addressable principal name
(errors of that last call are swallowed into `null`). -/
def findUserIdByName (env : GraphEnv) (emailOrName : String) (k : Nat) :
    LookupResult (Option String) :=
  match env.usersByDisplayName emailOrName with
  | .error e => { res := .error ("Failed to find user: " ++ e), calls := k + 1 }
  | .ok v =>
    match v with
    | some (u :: _) => { res := .ok (some u.id), calls := k + 1 }
    | _ =>
      match env.userByPrincipalName emailOrName with
      | .ok u => { res := .ok (some u.id), calls := k + 2 }
      | .error _ => { res := .ok none, calls := k + 2 }

/-- Embeds `findUserId`: when the string contains `@`, first query by email
(first hit wins), then fall back to the display-name / principal-name
strategies of `findUserIdByName`. -/
def findUserId (env : GraphEnv) (emailOrName : String) : LookupResult (Option String) :=
  if emailOrName.toList.contains '@' then
    match env.usersByMail emailOrName with
    | .error e => { res := .error ("Failed to find user: " ++ e), calls := 1 }
    | .ok v =>
      match v with
      | some (u :: _) => { res := .ok (some u.id), calls := 1 }
      | _ => findUserIdByName env emailOrName 1
  else findUserIdByName env emailOrName 0

/-- `String.prototype.includes` on the underlying character lists. -/
def listIncludes (needle : List Char) : List Char → Bool
  | [] => needle.isEmpty
  | c :: cs => listStartsWith needle (c :: cs) || listIncludes needle cs

/-- `hay.includes(needle)`. -/
def strIncludes (hay needle : String) : Bool :=
  listIncludes needle.toList hay.toList

/-- The title filter predicate
`m.subject?.toLowerCase().includes(title.toLowerCase())`. -/
def subjectIncludes (subj : Option String) (title : String) : Bool :=
  match subj with
  | some s => strIncludes (strLower s) (strLower title)
  | none => false

/-- Sort key of the meeting sort:
`m.startDateTime ? new Date(m.startDateTime) : new Date(0)`. -/
def startKey (m : Meeting) : Int :=
  m.startDateTime.getD 0

/-- Stable insertion into a descending-by-start-time list (an earlier
element precedes later ones with the same key, as the JavaScript stable
sort guarantees). -/
def insertByStart (x : Meeting) : List Meeting → List Meeting
  | [] => [x]
  | y :: ys => if startKey x ≥ startKey y then x :: y :: ys else y :: insertByStart x ys

/-- The meeting sort `filtered.sort((a, b) => bTime - aTime)`: stable,
descending by start time. -/
def sortByStartDesc : List Meeting → List Meeting
  | [] => []
  | x :: xs => insertByStart x (sortByStartDesc xs)

/-- The optional criteria of `findMeetingId`. -/
structure MeetingCriteria where
  title : Option String := none
  organizerEmail : Option String := none
  afterDate : Option Int := none
deriving Repr, DecidableEq

/-- The `afterDate` filter predicate: a meeting passes when it has a start
time at or after the bound. -/
def afterDateKeeps (after : Int) (m : Meeting) : Bool :=
  match m.startDateTime with
  | some t => decide (t ≥ after)
  | none => false

/-- Final stage of `findMeetingId`, after the title and organizer filters
produced `l` with `calls` lookups so far: apply the `afterDate` filter,
sort descending by start time, and return the first element's id (or
`null`). -/
def finishMeeting (calls : Nat) (crit : MeetingCriteria) (l : List Meeting) :
    LookupResult (Option String) :=
  let f3 :=
    match crit.afterDate with
    | some after => l.filter (afterDateKeeps after)
    | none => l
  match sortByStartDesc f3 with
  | [] => { res := .ok none, calls := calls }
  | m :: _ => { res := .ok (some m.id), calls := calls }

/-- Embeds `findMeetingId`: list `/me/onlineMeetings`; on an empty (or
`value`-less) response return `null`; filter by title substring, then by
organizer (the organizer criterion is dropped when `findUserId` resolves to
nothing truthy, and a `findUserId` throw is rethrown wrapped), then by
`afterDate`; sort descending by start time and return the first match. -/
def findMeetingId (env : GraphEnv) (crit : MeetingCriteria) : LookupResult (Option String) :=
  match env.onlineMeetings with
  | .error e => { res := .error ("Failed to find meeting: " ++ e), calls := 1 }
  | .ok v =>
    match v with
    | none => { res := .ok none, calls := 1 }
    | some [] => { res := .ok none, calls := 1 }
    | some meetings =>
      let f1 :=
        match truthy crit.title with
        | some t => meetings.filter (fun m => subjectIncludes m.subject t)
        | none => meetings
      match truthy crit.organizerEmail with
      | some oe =>
        let fu := findUserId env oe
        match fu.res with
        | .error e =>
          { res := .error ("Failed to find meeting: " ++ e), calls := 1 + fu.calls }
        | .ok organizerId? =>
          let f2 :=
            match truthy organizerId? with
            | some oid => f1.filter (fun m => m.organizerUserId == some oid)
            | none => f1
          let fin := finishMeeting 0 crit f2
          { res := fin.res, calls := 1 + fu.calls }
      | none =>
        let fin := finishMeeting 0 crit f1
        { res := fin.res, calls := 1 }

/-- Embeds `resolveTeamId`: a falsy input resolves to `null`; a
canonical-ID-shaped input is returned unchanged with no lookup; anything
else is resolved by display name. -/
def resolveTeamId (env : GraphEnv) (teamIdOrName : String) : LookupResult (Option String) :=
  if teamIdOrName = "" then { res := .ok none, calls := 0 }
  else if isGuid teamIdOrName then { res := .ok (some teamIdOrName), calls := 0 }
  else findTeamIdByName env teamIdOrName

/-- Embeds `resolveUserId`: a falsy input resolves to `null`; a
canonical-ID-shaped input is returned unchanged with no lookup; anything
else goes through `findUserId`. -/
def resolveUserId (env : GraphEnv) (userIdOrEmailOrName : String) :
    LookupResult (Option String) :=
  if userIdOrEmailOrName = "" then { res := .ok none, calls := 0 }
  else if isGuid userIdOrEmailOrName then
    { res := .ok (some userIdOrEmailOrName), calls := 0 }
  else findUserId env userIdOrEmailOrName

/-- The organizer id the organizer filter of `findMeetingId` actually uses:
`none` when no organizer criterion was supplied, when `findUserId` failed, or
when it resolved to nothing truthy (in which cases the filter is skipped). -/
def organizerFilterId (env : GraphEnv) (crit : MeetingCriteria) : Option String :=
  match truthy crit.organizerEmail with
  | none => none
  | some oe =>
    match (findUserId env oe).res with
    | .ok oid? => truthy oid?
    | .error _ => none

/-- Conjunction of the three `findMeetingId` filters, each trivially true
when its criterion is absent (or, for the organizer, unresolvable). -/
def matchesCriteria (env : GraphEnv) (crit : MeetingCriteria) (m : Meeting) : Bool :=
  (match truthy crit.title with
   | some t => subjectIncludes m.subject t
   | none => true) &&
  ((match organizerFilterId env crit with
    | some oid => m.organizerUserId == some oid
    | none => true) &&
   (match crit.afterDate with
    | some after => afterDateKeeps after m
    | none => true))

/-!
Concrete instances used by witnesses and counterexamples.
-/

/-- Concrete JWT decode: `"tok-expired"` carries subject `u1` and an expiry
of second 0; `"tok-valid"` carries subject `u1` and an expiry of second 3600;
everything else has an undecodable payload. -/
def exDecode : String → Option JwtClaims := fun s =>
  if s = "tok-expired" then some { oid := some "u1", exp := some 0 }
  else if s = "tok-valid" then some { oid := some "u1", exp := some 3600 }
  else none

/-- Concrete refresh endpoint that accepts every refresh token, rotating
`"R1"` to `"R2"` with a one-hour lifetime. -/
def exOracleOk : String → Except String RefreshResponse := fun rt =>
  if rt = "R1" then .ok { access_token := "A-fresh", refresh_token := some "R2", expires_in := 3600 }
  else .ok { access_token := "A-other", refresh_token := none, expires_in := 3600 }

/-- Concrete refresh endpoint that rejects every refresh token. -/
def exOracleFail : String → Except String RefreshResponse := fun _ =>
  .error "invalid_grant"

/-- Concrete refresh endpoint whose responses expire within the 60-second
margin: refreshing `"R1"` yields access token `"A2"` with refresh token
`"R2"`, and refreshing `"R2"` yields access token `"A3"`, each with a
30-second lifetime. -/
def exOracleShort : String → Except String RefreshResponse := fun rt =>
  if rt = "R1" then .ok { access_token := "A2", refresh_token := some "R2", expires_in := 30 }
  else if rt = "R2" then .ok { access_token := "A3", refresh_token := some "R3", expires_in := 30 }
  else .error "invalid_grant"

/-- Concrete meeting list from the specification's example: `"Daily Sync"`
at time 1000, `"Weekly Sync"` at the later time 2000, `"Standup"` at 3000. -/
def exMeetings : List Meeting :=
  [ { id := "m1", subject := some "Daily Sync", startDateTime := some 1000 },
    { id := "m2", subject := some "Weekly Sync", startDateTime := some 2000 },
    { id := "m3", subject := some "Standup", startDateTime := some 3000 } ]

/-- Concrete directory environment: one joined team, empty user queries (so
user resolution finds nobody), and the example meeting list. -/
def exEnv : GraphEnv :=
  { joinedTeams := .ok (some [{ id := "t-1", displayName := some "Project Falcon" }]),
    allTeams := .ok none,
    usersByMail := fun _ => .ok (some []),
    usersByDisplayName := fun _ => .ok (some []),
    userByPrincipalName := fun _ => .error "Request failed with status code 404",
    onlineMeetings := .ok (some exMeetings) }

/-- The empty store. -/
def exStoreEmpty : Store := { mem := [], durable := [] }

/-- A store holding one (long-expired) record for identity `u1`. -/
def exStoreU1 : Store :=
  { mem := [("u1", { accessToken := "A1", refreshToken := "R1", expiresAt := 0 })],
    durable := [("u1", { accessToken := "A1", refreshToken := "R1", expiresAt := 0 })] }

/-- Request carrying the expired token and a refresh token. -/
def exReqImm : Request :=
  { authorization := some "Bearer tok-expired", xRefreshToken := some "R1" }

/-- Request carrying the expired token and no refresh token. -/
def exReqNoRt : Request := { authorization := some "Bearer tok-expired" }

/-- Request carrying the still-valid token and a refresh token. -/
def exReqValid : Request :=
  { authorization := some "Bearer tok-valid", xRefreshToken := some "R1" }

/-- Request carrying an undecodable token and a refresh token. -/
def exReqGarbage : Request :=
  { authorization := some "Bearer garbage", xRefreshToken := some "R1" }

/-!
General-purpose lemmas about the embedded primitives.
-/

theorem truthy_eq_some {x : Option String} {s : String} :
    truthy x = some s ↔ x = some s ∧ s ≠ "" := by
  cases x with
  | none => simp [truthy]
  | some a =>
    simp only [truthy]
    by_cases ha : a = ""
    · subst ha
      constructor
      · intro h
        cases h
      · rintro ⟨h1, h2⟩
        cases h1
        exact absurd rfl h2
    · simp [ha]
      rintro rfl
      exact ha

theorem extractRefreshToken_ne_empty {req : Request} {rt : String}
    (h : extractRefreshToken req = some rt) : rt ≠ "" := by
  unfold extractRefreshToken at h
  cases hx : truthy req.xRefreshToken with
  | some s =>
    rw [hx] at h
    simp [Option.orElse] at h
    subst h
    exact (truthy_eq_some.mp hx).2
  | none =>
    rw [hx] at h
    simp [Option.orElse] at h
    exact (truthy_eq_some.mp h).2

theorem cacheGet_cacheSet_self (m : TokenMap) (k : String) (v : CredentialRecord) :
    cacheGet (cacheSet m k v) k = some v := by
  induction m with
  | nil => simp [cacheSet, cacheGet]
  | cons p rest ih =>
    obtain ⟨k', v'⟩ := p
    by_cases hk : k' = k
    · subst hk
      simp [cacheSet, cacheGet]
    · simp [cacheSet, cacheGet, hk, ih]

theorem mem_cacheSet {p : String × CredentialRecord} {m : TokenMap} {k : String}
    {v : CredentialRecord} (h : p ∈ cacheSet m k v) : p ∈ m ∨ p = (k, v) := by
  induction m with
  | nil =>
    simp [cacheSet] at h
    exact Or.inr h
  | cons q rest ih =>
    obtain ⟨k', v'⟩ := q
    by_cases hk : k' = k
    · subst hk
      simp [cacheSet] at h
      rcases h with h | h
      · exact Or.inr h
      · exact Or.inl (List.mem_cons_of_mem _ h)
    · simp [cacheSet, hk] at h
      rcases h with h | h
      · exact Or.inl (by simp [h])
      · rcases ih h with h' | h'
        · exact Or.inl (List.mem_cons_of_mem _ h')
        · exact Or.inr h'

theorem mem_cacheDelete {p : String × CredentialRecord} {m : TokenMap} {k : String}
    (h : p ∈ cacheDelete m k) : p ∈ m := by
  induction m with
  | nil => simp [cacheDelete] at h
  | cons q rest ih =>
    obtain ⟨k', v'⟩ := q
    by_cases hk : k' = k
    · subst hk
      simp [cacheDelete] at h
      exact List.mem_cons_of_mem _ h
    · simp [cacheDelete, hk] at h
      rcases h with h | h
      · simp [h]
      · exact List.mem_cons_of_mem _ (ih h)

theorem cacheGet_eq_none_of_not_mem_keys {m : TokenMap} {k : String}
    (h : k ∉ m.map Prod.fst) : cacheGet m k = none := by
  induction m with
  | nil => rfl
  | cons q rest ih =>
    obtain ⟨k', v'⟩ := q
    simp only [List.map_cons, List.mem_cons, not_or] at h
    simp only [cacheGet]
    rw [if_neg (fun hc => h.1 hc.symm)]
    exact ih h.2

theorem cacheGet_cacheDelete_self {m : TokenMap} {k : String}
    (hnd : (m.map Prod.fst).Nodup) : cacheGet (cacheDelete m k) k = none := by
  induction m with
  | nil => rfl
  | cons q rest ih =>
    obtain ⟨k', v'⟩ := q
    simp [List.nodup_cons] at hnd
    by_cases hk : k' = k
    · subst hk
      simp [cacheDelete]
      exact cacheGet_eq_none_of_not_mem_keys (by simpa using hnd.1)
    · simp [cacheDelete, hk, cacheGet]
      exact ih hnd.2

theorem refreshAccessToken_keeps_nonempty {oracle : String → Except String RefreshResponse}
    {rt : String} (hrt : rt ≠ "") {rr : RefreshedTokens}
    (h : refreshAccessToken oracle rt = .ok rr) : rr.refreshToken ≠ "" := by
  unfold refreshAccessToken at h
  cases ho : oracle rt with
  | ok r =>
    rw [ho] at h
    cases h
    cases ht : truthy r.refresh_token with
    | none => simpa [ht] using hrt
    | some s =>
      simpa [ht] using (truthy_eq_some.mp ht).2
  | error e => rw [ho] at h; cases h

theorem mem_insertByStart {x a : Meeting} {l : List Meeting} :
    a ∈ insertByStart x l ↔ a = x ∨ a ∈ l := by
  induction l with
  | nil => simp [insertByStart]
  | cons y ys ih =>
    simp only [insertByStart]
    split
    · simp [List.mem_cons]
    · simp only [List.mem_cons, ih]
      tauto

theorem mem_sortByStartDesc {a : Meeting} {l : List Meeting} :
    a ∈ sortByStartDesc l ↔ a ∈ l := by
  induction l with
  | nil => simp [sortByStartDesc]
  | cons x xs ih => simp [sortByStartDesc, mem_insertByStart, ih, List.mem_cons]

theorem pairwise_insertByStart {x : Meeting} {l : List Meeting}
    (h : l.Pairwise (fun a b => startKey b ≤ startKey a)) :
    (insertByStart x l).Pairwise (fun a b => startKey b ≤ startKey a) := by
  induction l with
  | nil => simp [insertByStart]
  | cons y ys ih =>
    rcases List.pairwise_cons.mp h with ⟨hy, hys⟩
    simp only [insertByStart]
    split
    · rename_i hxy
      refine List.pairwise_cons.mpr ⟨?_, h⟩
      intro z hz
      rcases List.mem_cons.mp hz with rfl | hz'
      · exact hxy
      · exact le_trans (hy z hz') hxy
    · rename_i hxy
      have hx : startKey x ≤ startKey y := le_of_not_le hxy
      refine List.pairwise_cons.mpr ⟨?_, ih hys⟩
      intro z hz
      rcases mem_insertByStart.mp hz with rfl | hz'
      · exact hx
      · exact hy z hz'

theorem pairwise_sortByStartDesc (l : List Meeting) :
    (sortByStartDesc l).Pairwise (fun a b => startKey b ≤ startKey a) := by
  induction l with
  | nil => simp [sortByStartDesc]
  | cons x xs ih => exact pairwise_insertByStart ih

theorem sortByStartDesc_head_ge {l : List Meeting} {m : Meeting} {rest : List Meeting}
    (h : sortByStartDesc l = m :: rest) : ∀ x ∈ l, startKey x ≤ startKey m := by
  intro x hx
  have hx' : x ∈ m :: rest := h ▸ mem_sortByStartDesc.mpr hx
  rcases List.mem_cons.mp hx' with rfl | hx''
  · exact le_refl _
  · have hp := pairwise_sortByStartDesc l
    rw [h] at hp
    exact (List.pairwise_cons.mp hp).1 x hx''

/-!
Claim theorems.
-/

/-- C1: for every request whose supplied access credential is expired and
that also supplies a refresh credential, `getDelegatedToken` refreshes
immediately with the supplied refresh credential; on success it writes the
resulting record into the in-memory map, mirrors it to the durable store,
and returns the freshly obtained access credential; on failure the
classified refresh error is propagated to the caller. -/
theorem getDelegatedToken_expired_with_refresh_immediate
    (decode : String → Option JwtClaims) (oracle : String → Except String RefreshResponse)
    (now : Int) (req : Request) (st : Store) (a rt : String)
    (hA : extractAccessToken req = some a)
    (hR : extractRefreshToken req = some rt)
    (hExp : isTokenExpired decode now a = true) :
    (∀ resp, oracle rt = .ok resp →
      (getDelegatedToken decode oracle now req st).result = .ok (some resp.access_token) ∧
      cacheGet (getDelegatedToken decode oracle now req st).store.mem
          (getUserIdFromToken decode a) =
        some { accessToken := resp.access_token,
               refreshToken := (truthy resp.refresh_token).getD rt,
               expiresAt := now + (resp.expires_in - 60) * 1000 } ∧
      (getDelegatedToken decode oracle now req st).store.durable =
        (getDelegatedToken decode oracle now req st).store.mem ∧
      (getDelegatedToken decode oracle now req st).refreshCalls = [rt]) ∧
    (∀ e, oracle rt = .error e →
      (getDelegatedToken decode oracle now req st).result =
        .error "Failed to refresh access token" ∧
      (getDelegatedToken decode oracle now req st).refreshCalls = [rt]) := by
  constructor
  · intro resp hresp
    simp [getDelegatedToken, hA, hR, hExp, refreshAccessToken, hresp, saveTokenCache,
      cacheGet_cacheSet_self]
  · intro e hresp
    simp [getDelegatedToken, hA, hR, hExp, refreshAccessToken, hresp]

/-- Witness for C1 at a concrete expired token, supplied refresh token
`R1`, and the successful refresh endpoint. -/
theorem getDelegatedToken_expired_with_refresh_immediate_witness :
    extractAccessToken exReqImm = some "tok-expired" ∧
    extractRefreshToken exReqImm = some "R1" ∧
    isTokenExpired exDecode 10000 "tok-expired" = true ∧
    (getDelegatedToken exDecode exOracleOk 10000 exReqImm exStoreEmpty).result =
      .ok (some "A-fresh") :=
  ⟨rfl, rfl, rfl,
    (((getDelegatedToken_expired_with_refresh_immediate exDecode exOracleOk 10000 exReqImm
        exStoreEmpty "tok-expired" "R1" rfl rfl rfl).1
      { access_token := "A-fresh", refresh_token := some "R2", expires_in := 3600 } rfl).1)⟩

/-- C4: for every request supplying an access credential whose embedded
expiry is in the past, with no refresh credential and no cache entry for
its identity, `getDelegatedToken` returns the supplied credential
unchanged, leaves the store untouched, and performs no refresh attempt. -/
theorem getDelegatedToken_expired_no_refresh_passthrough
    (decode : String → Option JwtClaims) (oracle : String → Except String RefreshResponse)
    (now : Int) (req : Request) (st : Store) (a : String) (c : JwtClaims) (e : Int)
    (hA : extractAccessToken req = some a)
    (hR : extractRefreshToken req = none)
    (hdec : decode a = some c) (hexp : c.exp = some e) (hpast : e * 1000 < now)
    (hnc : cacheGet st.mem (getUserIdFromToken decode a) = none) :
    getDelegatedToken decode oracle now req st =
      { result := .ok (some a), store := st, refreshCalls := [] } := by
  have hExp : isTokenExpired decode now a = true := by
    simp [isTokenExpired, hdec, hexp]
    exact le_of_lt hpast
  simp [getDelegatedToken, hA, hR, hExp, dtAfterImmediate, hnc, dtCacheNew]

/-- Witness for C4: the expired token with no refresh token against the
empty store passes through unchanged with no refresh call. -/
theorem getDelegatedToken_expired_no_refresh_passthrough_witness :
    extractAccessToken exReqNoRt = some "tok-expired" ∧
    extractRefreshToken exReqNoRt = none ∧
    exDecode "tok-expired" = some { oid := some "u1", exp := some 0 } ∧
    ((0 : Int) * 1000 < 10000) ∧
    cacheGet exStoreEmpty.mem (getUserIdFromToken exDecode "tok-expired") = none ∧
    getDelegatedToken exDecode exOracleOk 10000 exReqNoRt exStoreEmpty =
      { result := .ok (some "tok-expired"), store := exStoreEmpty, refreshCalls := [] } :=
  ⟨rfl, rfl, rfl, by decide, rfl,
    getDelegatedToken_expired_no_refresh_passthrough exDecode exOracleOk 10000 exReqNoRt
      exStoreEmpty "tok-expired" { oid := some "u1", exp := some 0 } 0
      rfl rfl rfl rfl (by decide) rfl⟩

/-- C6: every input matching the canonical 8-4-4-4-12 hex shape
(case-insensitive) is returned unchanged by both `resolveTeamId` and
`resolveUserId`, with zero lookup calls. -/
theorem resolveIds_canonical_shape_no_lookup (env : GraphEnv) (s : String)
    (h : isGuid s = true) :
    resolveTeamId env s = { res := .ok (some s), calls := 0 } ∧
    resolveUserId env s = { res := .ok (some s), calls := 0 } := by
  have hne : s ≠ "" := by
    intro h0
    rw [h0] at h
    exact absurd h (by decide)
  constructor
  · simp [resolveTeamId, hne, h]
  · simp [resolveUserId, hne, h]

/-- Witness for C6 at the specification's example identifier. -/
theorem resolveIds_canonical_shape_no_lookup_witness :
    isGuid "11111111-2222-3333-4444-555555555555" = true ∧
    resolveTeamId exEnv "11111111-2222-3333-4444-555555555555" =
      { res := .ok (some "11111111-2222-3333-4444-555555555555"), calls := 0 } ∧
    resolveUserId exEnv "11111111-2222-3333-4444-555555555555" =
      { res := .ok (some "11111111-2222-3333-4444-555555555555"), calls := 0 } :=
  ⟨by decide,
    (resolveIds_canonical_shape_no_lookup exEnv "11111111-2222-3333-4444-555555555555"
      (by decide)).1,
    (resolveIds_canonical_shape_no_lookup exEnv "11111111-2222-3333-4444-555555555555"
      (by decide)).2⟩

/-- C8: an access token whose payload cannot be decoded is treated as not
expired, so `getDelegatedToken` never refreshes it immediately even when a
refresh credential is supplied (no refresh call is made and the sentinel
identity is used); the malformed token is cached as if valid when a refresh
credential accompanies it, and passed through otherwise. -/
theorem malformed_token_not_expired_cached_or_passthrough
    (decode : String → Option JwtClaims) (oracle : String → Except String RefreshResponse)
    (now : Int) (a : String) (hdec : decode a = none) :
    isTokenExpired decode now a = false ∧
    getUserIdFromToken decode a = "default-user" ∧
    (∀ req st, extractAccessToken req = some a →
      cacheGet st.mem "default-user" = none →
      (getDelegatedToken decode oracle now req st).refreshCalls = [] ∧
      (getDelegatedToken decode oracle now req st).result = .ok (some a) ∧
      (∀ rt, extractRefreshToken req = some rt →
        cacheGet (getDelegatedToken decode oracle now req st).store.mem "default-user" =
          some { accessToken := a, refreshToken := rt,
                 expiresAt := now + 55 * 60 * 1000 }) ∧
      (extractRefreshToken req = none →
        (getDelegatedToken decode oracle now req st).store = st)) := by
  have hExp : isTokenExpired decode now a = false := by simp [isTokenExpired, hdec]
  have hUid : getUserIdFromToken decode a = "default-user" := by
    simp [getUserIdFromToken, hdec]
  refine ⟨hExp, hUid, ?_⟩
  intro req st hA hnc
  cases hR : extractRefreshToken req with
  | some rt =>
    refine ⟨?_, ?_, ?_, ?_⟩
    · simp [getDelegatedToken, hA, hR, hExp, dtAfterImmediate, hUid, hnc, dtCacheNew]
    · simp [getDelegatedToken, hA, hR, hExp, dtAfterImmediate, hUid, hnc, dtCacheNew]
    · intro rt' hrt'
      cases hrt'
      simp [getDelegatedToken, hA, hR, hExp, dtAfterImmediate, hUid, hnc, dtCacheNew,
        saveTokenCache, cacheGet_cacheSet_self]
    · intro h0
      exact Option.noConfusion h0
  | none =>
    refine ⟨?_, ?_, ?_, ?_⟩
    · simp [getDelegatedToken, hA, hR, hExp, dtAfterImmediate, hUid, hnc, dtCacheNew]
    · simp [getDelegatedToken, hA, hR, hExp, dtAfterImmediate, hUid, hnc, dtCacheNew]
    · intro rt' hrt'
      exact Option.noConfusion hrt'
    · intro _
      simp [getDelegatedToken, hA, hR, hExp, dtAfterImmediate, hUid, hnc, dtCacheNew]

/-- Witness for C8: the undecodable token with refresh token `R1` against
the empty store is cached as if valid, with no refresh call. -/
theorem malformed_token_not_expired_cached_or_passthrough_witness :
    exDecode "garbage" = none ∧
    extractAccessToken exReqGarbage = some "garbage" ∧
    cacheGet exStoreEmpty.mem "default-user" = none ∧
    (getDelegatedToken exDecode exOracleOk 10000 exReqGarbage exStoreEmpty).refreshCalls = [] ∧
    cacheGet (getDelegatedToken exDecode exOracleOk 10000 exReqGarbage exStoreEmpty).store.mem
        "default-user" =
      some { accessToken := "garbage", refreshToken := "R1", expiresAt := 10000 + 55 * 60 * 1000 } :=
  ⟨rfl, rfl, rfl,
    (((malformed_token_not_expired_cached_or_passthrough exDecode exOracleOk 10000 "garbage"
        rfl).2.2) exReqGarbage exStoreEmpty rfl rfl).1,
    ((((malformed_token_not_expired_cached_or_passthrough exDecode exOracleOk 10000 "garbage"
        rfl).2.2) exReqGarbage exStoreEmpty rfl rfl).2.2.1) "R1" rfl⟩

/-- C9: when an organizer criterion is supplied but `findUserId` resolves it
to `null`, the organizer criterion is silently dropped: `findMeetingId`
returns exactly what it returns with the organizer criterion absent. -/
theorem findMeetingId_drops_unresolvable_organizer
    (env : GraphEnv) (crit : MeetingCriteria) (oe : String)
    (hoe : truthy crit.organizerEmail = some oe)
    (hnull : (findUserId env oe).res = .ok none) :
    (findMeetingId env crit).res =
      (findMeetingId env { crit with organizerEmail := none }).res := by
  cases hv : env.onlineMeetings with
  | error e => simp [findMeetingId, hv]
  | ok v =>
    cases v with
    | none => simp [findMeetingId, hv]
    | some ms =>
      cases ms with
      | nil => simp [findMeetingId, hv]
      | cons m tl =>
        simp only [findMeetingId, hv]
        rw [hoe]
        simp [hnull, truthy, finishMeeting]

/-- Witness for C9: organizer `bob@x.com` is unresolvable in the example
environment, so the meeting search falls back to the title criterion alone
and still returns the most recent `Sync` meeting. -/
theorem findMeetingId_drops_unresolvable_organizer_witness :
    truthy (MeetingCriteria.organizerEmail
        { title := some "Sync", organizerEmail := some "bob@x.com" }) = some "bob@x.com" ∧
    (findUserId exEnv "bob@x.com").res = .ok none ∧
    (findMeetingId exEnv { title := some "Sync", organizerEmail := some "bob@x.com" }).res =
      (findMeetingId exEnv { title := some "Sync" }).res :=
  ⟨rfl, rfl,
    findMeetingId_drops_unresolvable_organizer exEnv
      { title := some "Sync", organizerEmail := some "bob@x.com" } "bob@x.com" rfl rfl⟩

theorem mem_of_cacheGet {m : TokenMap} {k : String} {v : CredentialRecord}
    (h : cacheGet m k = some v) : (k, v) ∈ m := by
  induction m with
  | nil => cases h
  | cons q rest ih =>
    obtain ⟨k', v'⟩ := q
    by_cases hk : k' = k
    · subst hk
      simp [cacheGet] at h
      simp [h]
    · simp [cacheGet, hk] at h
      exact List.mem_cons_of_mem _ (ih h)

/-- C2 counterexample: caching a freshly supplied, still-valid token (embedded
expiry at second 3600, i.e. millisecond 3600000) stores a record whose
`expiresAt` is the fixed 55-minute horizon from now, not the token's true
expiry minus the 60-second margin. -/
theorem storeRecord_margin_counterexample :
    exDecode "tok-valid" = some { oid := some "u1", exp := some 3600 } ∧
    (getDelegatedToken exDecode exOracleOk 10000 exReqValid exStoreEmpty).store.mem =
      [("u1", { accessToken := "tok-valid", refreshToken := "R1", expiresAt := 3310000 })] ∧
    (3310000 : Int) ≠ 3600 * 1000 - 60 * 1000 :=
  ⟨rfl, rfl, by decide⟩

/-- C2 amended: records written by the two refresh paths carry
`expiresAt = (now + expires_in seconds) - 60 seconds`, the refreshed token's
server-declared expiry minus the fixed margin; the path that caches a freshly
supplied, still-valid token instead stores the fixed horizon
`now + 55 minutes`, regardless of the supplied token's embedded expiry. -/
theorem storeRecord_expiry_margins :
    (∀ (decode : String → Option JwtClaims) (oracle : String → Except String RefreshResponse)
        (now : Int) (req : Request) (st : Store) (a rt : String) (resp : RefreshResponse),
      extractAccessToken req = some a →
      extractRefreshToken req = some rt →
      isTokenExpired decode now a = true →
      oracle rt = .ok resp →
      ∃ rec, cacheGet (getDelegatedToken decode oracle now req st).store.mem
            (getUserIdFromToken decode a) = some rec ∧
        rec.expiresAt = now + resp.expires_in * 1000 - 60 * 1000 ∧
        (getDelegatedToken decode oracle now req st).store.durable =
          (getDelegatedToken decode oracle now req st).store.mem) ∧
    (∀ (decode : String → Option JwtClaims) (oracle : String → Except String RefreshResponse)
        (now : Int) (req : Request) (st : Store) (a t : String)
        (cd : CredentialRecord) (resp : RefreshResponse),
      extractAccessToken req = some a →
      (isTokenExpired decode now a = false ∨ extractRefreshToken req = none) →
      cacheGet st.mem (getUserIdFromToken decode a) = some cd →
      ¬ now < cd.expiresAt →
      (extractRefreshToken req).orElse (fun _ => truthy (some cd.refreshToken)) = some t →
      oracle t = .ok resp →
      ∃ rec, cacheGet (getDelegatedToken decode oracle now req st).store.mem
            (getUserIdFromToken decode a) = some rec ∧
        rec.expiresAt = now + resp.expires_in * 1000 - 60 * 1000 ∧
        (getDelegatedToken decode oracle now req st).store.durable =
          (getDelegatedToken decode oracle now req st).store.mem) ∧
    (∀ (decode : String → Option JwtClaims) (oracle : String → Except String RefreshResponse)
        (now : Int) (req : Request) (st : Store) (a rt : String),
      extractAccessToken req = some a →
      extractRefreshToken req = some rt →
      isTokenExpired decode now a = false →
      cacheGet st.mem (getUserIdFromToken decode a) = none →
      ∃ rec, cacheGet (getDelegatedToken decode oracle now req st).store.mem
            (getUserIdFromToken decode a) = some rec ∧
        rec.expiresAt = now + 55 * 60 * 1000 ∧
        (getDelegatedToken decode oracle now req st).store.durable =
          (getDelegatedToken decode oracle now req st).store.mem) := by
  refine ⟨?_, ?_, ?_⟩
  · intro decode oracle now req st a rt resp hA hR hExp ho
    refine ⟨{ accessToken := resp.access_token,
              refreshToken := (truthy resp.refresh_token).getD rt,
              expiresAt := now + (resp.expires_in - 60) * 1000 }, ?_, ?_, ?_⟩
    · simp [getDelegatedToken, hA, hR, hExp, refreshAccessToken, ho, saveTokenCache,
        cacheGet_cacheSet_self]
    · show now + (resp.expires_in - 60) * 1000 = now + resp.expires_in * 1000 - 60 * 1000
      ring
    · simp [getDelegatedToken, hA, hR, hExp, refreshAccessToken, ho, saveTokenCache]
  · intro decode oracle now req st a t cd resp hA hni hc hstale htu ho
    rcases hni with hExp | hRn
    · cases hR : extractRefreshToken req with
      | some rt =>
        rw [hR] at htu
        simp only [Option.orElse] at htu
        cases htu
        refine ⟨{ accessToken := resp.access_token,
                  refreshToken := (truthy resp.refresh_token).getD t,
                  expiresAt := now + (resp.expires_in - 60) * 1000 }, ?_, ?_, ?_⟩
        · simp [getDelegatedToken, hA, hR, hExp, dtAfterImmediate, hc, hstale,
            Option.orElse, refreshAccessToken, ho, saveTokenCache, cacheGet_cacheSet_self]
        · show now + (resp.expires_in - 60) * 1000 = now + resp.expires_in * 1000 - 60 * 1000
          ring
        · simp [getDelegatedToken, hA, hR, hExp, dtAfterImmediate, hc, hstale,
            Option.orElse, refreshAccessToken, ho, saveTokenCache]
      | none =>
        rw [hR] at htu
        simp only [Option.orElse] at htu
        refine ⟨{ accessToken := resp.access_token,
                  refreshToken := (truthy resp.refresh_token).getD t,
                  expiresAt := now + (resp.expires_in - 60) * 1000 }, ?_, ?_, ?_⟩
        · simp [getDelegatedToken, hA, hR, hExp, dtAfterImmediate, hc, hstale,
            Option.orElse, htu, refreshAccessToken, ho, saveTokenCache, cacheGet_cacheSet_self]
        · show now + (resp.expires_in - 60) * 1000 = now + resp.expires_in * 1000 - 60 * 1000
          ring
        · simp [getDelegatedToken, hA, hR, hExp, dtAfterImmediate, hc, hstale,
            Option.orElse, htu, refreshAccessToken, ho, saveTokenCache]
    · rw [hRn] at htu
      simp only [Option.orElse] at htu
      cases hExp : isTokenExpired decode now a with
      | true =>
        refine ⟨{ accessToken := resp.access_token,
                  refreshToken := (truthy resp.refresh_token).getD t,
                  expiresAt := now + (resp.expires_in - 60) * 1000 }, ?_, ?_, ?_⟩
        · simp [getDelegatedToken, hA, hRn, hExp, dtAfterImmediate, hc, hstale,
            Option.orElse, htu, refreshAccessToken, ho, saveTokenCache, cacheGet_cacheSet_self]
        · show now + (resp.expires_in - 60) * 1000 = now + resp.expires_in * 1000 - 60 * 1000
          ring
        · simp [getDelegatedToken, hA, hRn, hExp, dtAfterImmediate, hc, hstale,
            Option.orElse, htu, refreshAccessToken, ho, saveTokenCache]
      | false =>
        refine ⟨{ accessToken := resp.access_token,
                  refreshToken := (truthy resp.refresh_token).getD t,
                  expiresAt := now + (resp.expires_in - 60) * 1000 }, ?_, ?_, ?_⟩
        · simp [getDelegatedToken, hA, hRn, hExp, dtAfterImmediate, hc, hstale,
            Option.orElse, htu, refreshAccessToken, ho, saveTokenCache, cacheGet_cacheSet_self]
        · show now + (resp.expires_in - 60) * 1000 = now + resp.expires_in * 1000 - 60 * 1000
          ring
        · simp [getDelegatedToken, hA, hRn, hExp, dtAfterImmediate, hc, hstale,
            Option.orElse, htu, refreshAccessToken, ho, saveTokenCache]
  · intro decode oracle now req st a rt hA hR hExp hnc
    refine ⟨{ accessToken := a, refreshToken := rt,
              expiresAt := now + 55 * 60 * 1000 }, ?_, rfl, ?_⟩
    · simp [getDelegatedToken, hA, hR, hExp, dtAfterImmediate, hnc, dtCacheNew,
        saveTokenCache, cacheGet_cacheSet_self]
    · simp [getDelegatedToken, hA, hR, hExp, dtAfterImmediate, hnc, dtCacheNew, saveTokenCache]

/-- Witness for the amended C2, instantiating all three write paths: the
immediate refresh (expiry `10000 + 3600*1000 - 60000`), the cached-expired
refresh (same arithmetic), and the fresh-cache path (`10000 + 55 minutes`). -/
theorem storeRecord_expiry_margins_witness :
    (∃ rec, cacheGet (getDelegatedToken exDecode exOracleOk 10000 exReqImm exStoreEmpty).store.mem
          (getUserIdFromToken exDecode "tok-expired") = some rec ∧
      rec.expiresAt = 10000 + 3600 * 1000 - 60 * 1000 ∧
      (getDelegatedToken exDecode exOracleOk 10000 exReqImm exStoreEmpty).store.durable =
        (getDelegatedToken exDecode exOracleOk 10000 exReqImm exStoreEmpty).store.mem) ∧
    (∃ rec, cacheGet (getDelegatedToken exDecode exOracleOk 10000 exReqNoRt exStoreU1).store.mem
          (getUserIdFromToken exDecode "tok-expired") = some rec ∧
      rec.expiresAt = 10000 + 3600 * 1000 - 60 * 1000 ∧
      (getDelegatedToken exDecode exOracleOk 10000 exReqNoRt exStoreU1).store.durable =
        (getDelegatedToken exDecode exOracleOk 10000 exReqNoRt exStoreU1).store.mem) ∧
    (∃ rec, cacheGet (getDelegatedToken exDecode exOracleOk 10000 exReqValid exStoreEmpty).store.mem
          (getUserIdFromToken exDecode "tok-valid") = some rec ∧
      rec.expiresAt = 10000 + 55 * 60 * 1000 ∧
      (getDelegatedToken exDecode exOracleOk 10000 exReqValid exStoreEmpty).store.durable =
        (getDelegatedToken exDecode exOracleOk 10000 exReqValid exStoreEmpty).store.mem) :=
  ⟨storeRecord_expiry_margins.1 exDecode exOracleOk 10000 exReqImm exStoreEmpty
      "tok-expired" "R1" { access_token := "A-fresh", refresh_token := some "R2", expires_in := 3600 }
      rfl rfl rfl rfl,
   storeRecord_expiry_margins.2.1 exDecode exOracleOk 10000 exReqNoRt exStoreU1
      "tok-expired" "R1" { accessToken := "A1", refreshToken := "R1", expiresAt := 0 }
      { access_token := "A-fresh", refresh_token := some "R2", expires_in := 3600 }
      rfl (Or.inr rfl) rfl (by decide) rfl rfl,
   storeRecord_expiry_margins.2.2 exDecode exOracleOk 10000 exReqValid exStoreEmpty
      "tok-valid" "R1" rfl rfl rfl rfl⟩

/-- C3 counterexample: on the immediate-refresh path (supplied access token
expired, refresh token supplied) a refresh failure propagates the error but
leaves the existing cache entry for the identity in place, in both the
in-memory map and the durable mirror — the entry is not evicted. -/
theorem refresh_failure_eviction_counterexample :
    (getDelegatedToken exDecode exOracleFail 10000 exReqImm exStoreU1).result =
      .error "Failed to refresh access token" ∧
    cacheGet (getDelegatedToken exDecode exOracleFail 10000 exReqImm exStoreU1).store.mem
        "u1" = some { accessToken := "A1", refreshToken := "R1", expiresAt := 0 } ∧
    cacheGet (getDelegatedToken exDecode exOracleFail 10000 exReqImm exStoreU1).store.durable
        "u1" = some { accessToken := "A1", refreshToken := "R1", expiresAt := 0 } :=
  ⟨rfl, rfl, rfl⟩

/-- C3 amended: eviction on refresh failure happens exactly on the
cached-record refresh path — when a cached record exists, is past its
`expiresAt`, and the chosen refresh token is rejected, the entry is removed
from the in-memory map, the removal is mirrored durably, and the error then
propagates; on the immediate-refresh path the entry is left intact (as the
counterexample shows). -/
theorem refresh_failure_evicts_on_cached_path
    (decode : String → Option JwtClaims) (oracle : String → Except String RefreshResponse)
    (now : Int) (req : Request) (st : Store) (a t : String) (cd : CredentialRecord)
    (e : String)
    (hA : extractAccessToken req = some a)
    (hni : isTokenExpired decode now a = false ∨ extractRefreshToken req = none)
    (hc : cacheGet st.mem (getUserIdFromToken decode a) = some cd)
    (hstale : ¬ now < cd.expiresAt)
    (htu : (extractRefreshToken req).orElse (fun _ => truthy (some cd.refreshToken)) = some t)
    (hfail : oracle t = .error e)
    (hnd : (st.mem.map Prod.fst).Nodup) :
    (getDelegatedToken decode oracle now req st).result =
      .error "Failed to refresh access token" ∧
    cacheGet (getDelegatedToken decode oracle now req st).store.mem
      (getUserIdFromToken decode a) = none ∧
    (getDelegatedToken decode oracle now req st).store.durable =
      (getDelegatedToken decode oracle now req st).store.mem := by
  rcases hni with hExp | hRn
  · cases hR : extractRefreshToken req with
    | some rt =>
      rw [hR] at htu
      simp only [Option.orElse] at htu
      cases htu
      refine ⟨?_, ?_, ?_⟩ <;>
        simp [getDelegatedToken, hA, hR, hExp, dtAfterImmediate, hc, hstale,
          Option.orElse, refreshAccessToken, hfail, saveTokenCache,
          cacheGet_cacheDelete_self hnd]
    | none =>
      rw [hR] at htu
      simp only [Option.orElse] at htu
      refine ⟨?_, ?_, ?_⟩ <;>
        simp [getDelegatedToken, hA, hR, hExp, dtAfterImmediate, hc, hstale,
          Option.orElse, htu, refreshAccessToken, hfail, saveTokenCache,
          cacheGet_cacheDelete_self hnd]
  · rw [hRn] at htu
    simp only [Option.orElse] at htu
    cases hExp : isTokenExpired decode now a with
    | true =>
      refine ⟨?_, ?_, ?_⟩ <;>
        simp [getDelegatedToken, hA, hRn, hExp, dtAfterImmediate, hc, hstale,
          Option.orElse, htu, refreshAccessToken, hfail, saveTokenCache,
          cacheGet_cacheDelete_self hnd]
    | false =>
      refine ⟨?_, ?_, ?_⟩ <;>
        simp [getDelegatedToken, hA, hRn, hExp, dtAfterImmediate, hc, hstale,
          Option.orElse, htu, refreshAccessToken, hfail, saveTokenCache,
          cacheGet_cacheDelete_self hnd]

/-- Witness for the amended C3: the expired token with no supplied refresh
token, against a store whose cached `u1` record is stale, with the rejecting
refresh endpoint: the call fails and the `u1` entry is gone from both the
in-memory map and the durable mirror. -/
theorem refresh_failure_evicts_on_cached_path_witness :
    extractAccessToken exReqNoRt = some "tok-expired" ∧
    cacheGet exStoreU1.mem (getUserIdFromToken exDecode "tok-expired") =
      some { accessToken := "A1", refreshToken := "R1", expiresAt := 0 } ∧
    (getDelegatedToken exDecode exOracleFail 10000 exReqNoRt exStoreU1).result =
      .error "Failed to refresh access token" ∧
    cacheGet (getDelegatedToken exDecode exOracleFail 10000 exReqNoRt exStoreU1).store.mem
      (getUserIdFromToken exDecode "tok-expired") = none ∧
    (getDelegatedToken exDecode exOracleFail 10000 exReqNoRt exStoreU1).store.durable =
      (getDelegatedToken exDecode exOracleFail 10000 exReqNoRt exStoreU1).store.mem :=
  ⟨rfl, rfl,
    (refresh_failure_evicts_on_cached_path exDecode exOracleFail 10000 exReqNoRt exStoreU1
      "tok-expired" "R1" { accessToken := "A1", refreshToken := "R1", expiresAt := 0 }
      "invalid_grant" rfl (Or.inr rfl) rfl (by decide) rfl rfl (by decide)).1,
    (refresh_failure_evicts_on_cached_path exDecode exOracleFail 10000 exReqNoRt exStoreU1
      "tok-expired" "R1" { accessToken := "A1", refreshToken := "R1", expiresAt := 0 }
      "invalid_grant" rfl (Or.inr rfl) rfl (by decide) rfl rfl (by decide)).2.1,
    (refresh_failure_evicts_on_cached_path exDecode exOracleFail 10000 exReqNoRt exStoreU1
      "tok-expired" "R1" { accessToken := "A1", refreshToken := "R1", expiresAt := 0 }
      "invalid_grant" rfl (Or.inr rfl) rfl (by decide) rfl rfl (by decide)).2.2⟩

theorem dtCacheNew_nonempty (oracle : String → Except String RefreshResponse) (now : Int)
    (accessToken userId : String) (providedTokenExpired : Bool)
    (refreshToken? : Option String) (st : Store)
    (hrt : ∀ rt, refreshToken? = some rt → rt ≠ "")
    (hm : ∀ p ∈ st.mem, p.2.refreshToken ≠ "")
    (hd : ∀ p ∈ st.durable, p.2.refreshToken ≠ "") :
    (∀ p ∈ (dtCacheNew oracle now accessToken userId providedTokenExpired
        refreshToken? st).store.mem, p.2.refreshToken ≠ "") ∧
    (∀ p ∈ (dtCacheNew oracle now accessToken userId providedTokenExpired
        refreshToken? st).store.durable, p.2.refreshToken ≠ "") := by
  cases refreshToken? with
  | none =>
    exact ⟨by simpa [dtCacheNew] using hm, by simpa [dtCacheNew] using hd⟩
  | some rt =>
    have hrt' : rt ≠ "" := hrt rt rfl
    cases hPE : providedTokenExpired with
    | false =>
      constructor <;>
      · intro p hp
        simp [dtCacheNew, saveTokenCache] at hp
        rcases mem_cacheSet hp with h | h
        · exact hm p h
        · subst h
          exact hrt'
    | true =>
      cases hro : refreshAccessToken oracle rt with
      | ok r =>
        have hr' : r.refreshToken ≠ "" := refreshAccessToken_keeps_nonempty hrt' hro
        constructor <;>
        · intro p hp
          simp [dtCacheNew, hro, saveTokenCache] at hp
          rcases mem_cacheSet hp with h | h
          · exact hm p h
          · subst h
            exact hr'
      | error e =>
        refine ⟨?_, ?_⟩
        · intro p hp
          simp [dtCacheNew, hro] at hp
          exact hm p hp
        · intro p hp
          simp [dtCacheNew, hro] at hp
          exact hd p hp

theorem dtAfterImmediate_nonempty (oracle : String → Except String RefreshResponse) (now : Int)
    (accessToken userId : String) (providedTokenExpired : Bool)
    (refreshToken? : Option String) (st : Store)
    (hrt : ∀ rt, refreshToken? = some rt → rt ≠ "")
    (hm : ∀ p ∈ st.mem, p.2.refreshToken ≠ "")
    (hd : ∀ p ∈ st.durable, p.2.refreshToken ≠ "") :
    (∀ p ∈ (dtAfterImmediate oracle now accessToken userId providedTokenExpired
        refreshToken? st).store.mem, p.2.refreshToken ≠ "") ∧
    (∀ p ∈ (dtAfterImmediate oracle now accessToken userId providedTokenExpired
        refreshToken? st).store.durable, p.2.refreshToken ≠ "") := by
  cases hc : cacheGet st.mem userId with
  | none =>
    have h := dtCacheNew_nonempty oracle now accessToken userId providedTokenExpired
      refreshToken? st hrt hm hd
    have heq : dtAfterImmediate oracle now accessToken userId providedTokenExpired
        refreshToken? st = dtCacheNew oracle now accessToken userId providedTokenExpired
        refreshToken? st := by
      simp [dtAfterImmediate, hc]
    rw [heq]
    exact h
  | some cd =>
    by_cases hv : now < cd.expiresAt
    · have heq : (dtAfterImmediate oracle now accessToken userId providedTokenExpired
          refreshToken? st).store = st := by
        simp [dtAfterImmediate, hc, hv]
      rw [heq]
      exact ⟨hm, hd⟩
    · cases hto : refreshToken?.orElse (fun _ => truthy (some cd.refreshToken)) with
      | none =>
        have h := dtCacheNew_nonempty oracle now accessToken userId providedTokenExpired
          refreshToken? st hrt hm hd
        have heq : dtAfterImmediate oracle now accessToken userId providedTokenExpired
            refreshToken? st = dtCacheNew oracle now accessToken userId providedTokenExpired
            refreshToken? st := by
          simp [dtAfterImmediate, hc, hv, hto]
        rw [heq]
        exact h
      | some t =>
        have ht : t ≠ "" := by
          cases hrq : refreshToken? with
          | some rt =>
            rw [hrq] at hto
            simp only [Option.orElse] at hto
            cases hto
            exact hrt t hrq
          | none =>
            rw [hrq] at hto
            simp only [Option.orElse] at hto
            exact (truthy_eq_some.mp hto).2
        cases hro : refreshAccessToken oracle t with
        | ok r =>
          have hr' : r.refreshToken ≠ "" := refreshAccessToken_keeps_nonempty ht hro
          constructor <;>
          · intro p hp
            simp [dtAfterImmediate, hc, hv, hto, hro, saveTokenCache] at hp
            rcases mem_cacheSet hp with h | h
            · exact hm p h
            · subst h
              exact hr'
        | error e =>
          constructor <;>
          · intro p hp
            simp [dtAfterImmediate, hc, hv, hto, hro, saveTokenCache] at hp
            exact hm p (mem_cacheDelete hp)

/-- C10: every record held in the user token cache keeps a non-empty
refresh token: `refreshAccessToken` returns the old (non-empty) refresh
token when the exchange response carries no truthy new one, and every
cache-writing path of `getDelegatedToken` stores either a refresh result's
token or the (truthy) supplied one, so the store-wide invariant is
preserved by every call, in memory and durably. -/
theorem cached_refreshToken_nonempty_invariant :
    (∀ (oracle : String → Except String RefreshResponse) (rt : String), rt ≠ "" →
      ∀ rr, refreshAccessToken oracle rt = .ok rr → rr.refreshToken ≠ "") ∧
    (∀ (decode : String → Option JwtClaims) (oracle : String → Except String RefreshResponse)
        (now : Int) (req : Request) (st : Store),
      (∀ p ∈ st.mem, p.2.refreshToken ≠ "") →
      (∀ p ∈ st.durable, p.2.refreshToken ≠ "") →
      (∀ p ∈ (getDelegatedToken decode oracle now req st).store.mem,
        p.2.refreshToken ≠ "") ∧
      (∀ p ∈ (getDelegatedToken decode oracle now req st).store.durable,
        p.2.refreshToken ≠ "")) := by
  constructor
  · intro oracle rt hrt rr h
    exact refreshAccessToken_keeps_nonempty hrt h
  · intro decode oracle now req st hm hd
    have hrt : ∀ rt, extractRefreshToken req = some rt → rt ≠ "" :=
      fun rt h => extractRefreshToken_ne_empty h
    cases hA : extractAccessToken req with
    | none =>
      exact ⟨by simpa [getDelegatedToken, hA] using hm,
        by simpa [getDelegatedToken, hA] using hd⟩
    | some a =>
      cases hExp : isTokenExpired decode now a with
      | true =>
        cases hR : extractRefreshToken req with
        | some rt =>
          have hrt' : rt ≠ "" := hrt rt hR
          cases hro : refreshAccessToken oracle rt with
          | ok r =>
            have hr' : r.refreshToken ≠ "" := refreshAccessToken_keeps_nonempty hrt' hro
            constructor <;>
            · intro p hp
              simp [getDelegatedToken, hA, hR, hExp, hro, saveTokenCache] at hp
              rcases mem_cacheSet hp with h | h
              · exact hm p h
              · subst h
                exact hr'
          | error e =>
            refine ⟨?_, ?_⟩
            · intro p hp
              simp [getDelegatedToken, hA, hR, hExp, hro] at hp
              exact hm p hp
            · intro p hp
              simp [getDelegatedToken, hA, hR, hExp, hro] at hp
              exact hd p hp
        | none =>
          have h := dtAfterImmediate_nonempty oracle now a (getUserIdFromToken decode a)
            true none st (by intro rt h0; cases h0) hm hd
          have heq : getDelegatedToken decode oracle now req st =
              dtAfterImmediate oracle now a (getUserIdFromToken decode a) true none st := by
            simp [getDelegatedToken, hA, hR, hExp]
          rw [heq]
          exact h
      | false =>
        have h := dtAfterImmediate_nonempty oracle now a (getUserIdFromToken decode a)
          false (extractRefreshToken req) st hrt hm hd
        have heq : getDelegatedToken decode oracle now req st =
            dtAfterImmediate oracle now a (getUserIdFromToken decode a) false
              (extractRefreshToken req) st := by
          simp [getDelegatedToken, hA, hExp]
        rw [heq]
        exact h

/-- Witness for C10: the invariant holds concretely through a refresh of
the `u1` record (a non-empty rotated refresh token is stored), and the
refresh result of a non-empty token is non-empty. -/
theorem cached_refreshToken_nonempty_invariant_witness :
    ("R1" ≠ "") ∧
    (∀ rr, refreshAccessToken exOracleOk "R1" = .ok rr → rr.refreshToken ≠ "") ∧
    ((∀ p ∈ exStoreU1.mem, p.2.refreshToken ≠ "") ∧
     (∀ p ∈ (getDelegatedToken exDecode exOracleOk 10000 exReqImm exStoreU1).store.mem,
       p.2.refreshToken ≠ "")) :=
  ⟨by decide,
   fun rr h => (cached_refreshToken_nonempty_invariant.1 exOracleOk "R1" (by decide)) rr h,
   by decide,
   fun p hp =>
     (cached_refreshToken_nonempty_invariant.2 exDecode exOracleOk 10000 exReqImm exStoreU1
       (by decide) (by decide)).1 p hp⟩

theorem mem_optFilter {β : Type} (o : Option β) (p : β → Meeting → Bool)
    (l : List Meeting) (m : Meeting) :
    (m ∈ (match o with | some x => l.filter (p x) | none => l)) ↔
      (m ∈ l ∧ (match o with | some x => p x m | none => true) = true) := by
  cases o <;> simp [List.mem_filter]

theorem findMeetingId_filter_spec (env : GraphEnv) (crit : MeetingCriteria)
    (ms : List Meeting) (hm : env.onlineMeetings = .ok (some ms)) :
    (∃ e, (findMeetingId env crit).res = .error e) ∨
    ∃ l : List Meeting,
      (∀ m, m ∈ l ↔ m ∈ ms ∧ matchesCriteria env crit m = true) ∧
      (findMeetingId env crit).res =
        (match sortByStartDesc l with
         | [] => Except.ok none
         | m :: _ => Except.ok (some m.id)) := by
  cases ms with
  | nil =>
    right
    refine ⟨[], by simp, ?_⟩
    simp [findMeetingId, hm, sortByStartDesc]
  | cons m0 tl =>
    cases hoe : truthy crit.organizerEmail with
    | some oe =>
      cases hfu : (findUserId env oe).res with
      | error e =>
        left
        refine ⟨"Failed to find meeting: " ++ e, ?_⟩
        simp [findMeetingId, hm]
        rw [hoe]
        simp [hfu]
      | ok oid? =>
        right
        have horg : organizerFilterId env crit = truthy oid? := by
          simp [organizerFilterId, hoe, hfu]
        refine ⟨(match crit.afterDate with
                 | some after =>
                   (match truthy oid? with
                    | some oid =>
                      (match truthy crit.title with
                       | some t => (m0 :: tl).filter (fun (m : Meeting) => subjectIncludes m.subject t)
                       | none => m0 :: tl).filter (fun (m : Meeting) => m.organizerUserId == some oid)
                    | none =>
                      match truthy crit.title with
                      | some t => (m0 :: tl).filter (fun (m : Meeting) => subjectIncludes m.subject t)
                      | none => m0 :: tl).filter (afterDateKeeps after)
                 | none =>
                   match truthy oid? with
                   | some oid =>
                     (match truthy crit.title with
                      | some t => (m0 :: tl).filter (fun (m : Meeting) => subjectIncludes m.subject t)
                      | none => m0 :: tl).filter (fun (m : Meeting) => m.organizerUserId == some oid)
                   | none =>
                     match truthy crit.title with
                     | some t => (m0 :: tl).filter (fun (m : Meeting) => subjectIncludes m.subject t)
                     | none => m0 :: tl), ?_, ?_⟩
        · intro m
          simp only [matchesCriteria, horg]
          cases had : crit.afterDate <;> cases hoid : truthy oid? <;>
            cases ht : truthy crit.title <;>
            simp [List.mem_filter, and_assoc] <;> tauto
        · simp only [findMeetingId, hm]
          rw [hoe]
          simp only [hfu, finishMeeting]
          cases had : crit.afterDate <;> cases hoid : truthy oid? <;>
            cases ht : truthy crit.title <;> simp <;>
            (split <;> rename_i hs <;> simp [hs])
    | none =>
      right
      have horg : organizerFilterId env crit = none := by
        simp [organizerFilterId, hoe]
      refine ⟨(match crit.afterDate with
               | some after =>
                 (match truthy crit.title with
                  | some t => (m0 :: tl).filter (fun (m : Meeting) => subjectIncludes m.subject t)
                  | none => m0 :: tl).filter (afterDateKeeps after)
               | none =>
                 match truthy crit.title with
                 | some t => (m0 :: tl).filter (fun (m : Meeting) => subjectIncludes m.subject t)
                 | none => m0 :: tl), ?_, ?_⟩
      · intro m
        simp only [matchesCriteria, horg]
        cases had : crit.afterDate <;> cases ht : truthy crit.title <;>
          (first
            | (simp [List.mem_filter, and_assoc]; tauto)
            | simp [List.mem_filter, and_assoc])
      · simp only [findMeetingId, hm]
        rw [hoe]
        simp only [finishMeeting]
        cases had : crit.afterDate <;> cases ht : truthy crit.title <;> simp <;>
          (split <;> rename_i hs <;> simp [hs])

/-- C7: `findMeetingId` filters the meeting list by case-insensitive title
substring, organizer identity and lower-bound start time (each only when
supplied), sorts descending by start time and returns the most recent match
(`null` when none survive; with no criteria the most recent meeting): every
returned id belongs to a listed meeting that satisfies all supplied
criteria and whose start time is maximal among the matches, a `null` result
means no listed meeting matches, and on the specification's example
(criteria title `"Sync"`) it returns the meeting at the later time `t2`. -/
theorem findMeetingId_returns_most_recent_match :
    (∀ (env : GraphEnv) (crit : MeetingCriteria) (ms : List Meeting) (id : String),
      env.onlineMeetings = .ok (some ms) →
      (findMeetingId env crit).res = .ok (some id) →
      ∃ m, m ∈ ms ∧ m.id = id ∧ matchesCriteria env crit m = true ∧
        ∀ m2 ∈ ms, matchesCriteria env crit m2 = true → startKey m2 ≤ startKey m) ∧
    (∀ (env : GraphEnv) (crit : MeetingCriteria) (ms : List Meeting),
      env.onlineMeetings = .ok (some ms) →
      (findMeetingId env crit).res = .ok none →
      ∀ m ∈ ms, matchesCriteria env crit m ≠ true) ∧
    (findMeetingId exEnv { title := some "Sync" }).res = .ok (some "m2") := by
  refine ⟨?_, ?_, ?_⟩
  · intro env crit ms id hm hres
    rcases findMeetingId_filter_spec env crit ms hm with ⟨e, he⟩ | ⟨l, hl, heq⟩
    · rw [hres] at he
      cases he
    · rw [heq] at hres
      cases hs : sortByStartDesc l with
      | nil =>
        rw [hs] at hres
        simp at hres
      | cons m rest =>
        rw [hs] at hres
        simp at hres
        have hmem : m ∈ l := mem_sortByStartDesc.mp (hs ▸ List.mem_cons_self m rest)
        rcases (hl m).mp hmem with ⟨hms, hmc⟩
        refine ⟨m, hms, hres, hmc, ?_⟩
        intro m2 hm2 hc2
        exact sortByStartDesc_head_ge hs m2 ((hl m2).mpr ⟨hm2, hc2⟩)
  · intro env crit ms hm hres m hms hc
    rcases findMeetingId_filter_spec env crit ms hm with ⟨e, he⟩ | ⟨l, hl, heq⟩
    · rw [hres] at he
      cases he
    · rw [heq] at hres
      cases hs : sortByStartDesc l with
      | nil =>
        have hmem : m ∈ l := (hl m).mpr ⟨hms, hc⟩
        have : m ∈ sortByStartDesc l := mem_sortByStartDesc.mpr hmem
        rw [hs] at this
        cases this
      | cons m1 rest =>
        rw [hs] at hres
        simp at hres
  · rfl

/-- Witness for C7: the maximality conclusion at the specification's
example — in `exEnv`, criteria `title = "Sync"` yield a meeting that is
listed, matches, and is at least as recent as every other match. -/
theorem findMeetingId_returns_most_recent_match_witness :
    GraphEnv.onlineMeetings exEnv = .ok (some exMeetings) ∧
    (findMeetingId exEnv { title := some "Sync" }).res = .ok (some "m2") ∧
    (∃ m, m ∈ exMeetings ∧ m.id = "m2" ∧
      matchesCriteria exEnv { title := some "Sync" } m = true ∧
      ∀ m2 ∈ exMeetings, matchesCriteria exEnv { title := some "Sync" } m2 = true →
        startKey m2 ≤ startKey m) :=
  ⟨rfl, rfl,
    findMeetingId_returns_most_recent_match.1 exEnv { title := some "Sync" }
      exMeetings "m2" rfl rfl⟩

/-- C5 counterexample: with a stale cached record and a refresh endpoint
whose responses live only 30 seconds (inside the 60-second margin), two
immediately successive calls return different access credentials — the
first refresh's record is written already stale, so the second call
refreshes again and obtains a different token. -/
theorem obtain_idempotence_counterexample :
    (getDelegatedToken exDecode exOracleShort 10000 exReqNoRt exStoreU1).result =
      .ok (some "A2") ∧
    (getDelegatedToken exDecode exOracleShort 10000 exReqNoRt
        (getDelegatedToken exDecode exOracleShort 10000 exReqNoRt exStoreU1).store).result =
      .ok (some "A3") ∧
    (Except.ok (some "A2") : Except String (Option String)) ≠ .ok (some "A3") :=
  ⟨rfl, rfl, by decide⟩

/-- C5 amended: calling `getDelegatedToken` twice in immediate succession
(same request, no elapsed time, the second call running on the first call's
store) returns the same result, provided every refresh exchange succeeds
with an `expires_in` exceeding the 60-second safety margin (so no record is
written already stale, as in the counterexample). -/
theorem obtain_idempotent_when_refreshes_outlive_margin
    (decode : String → Option JwtClaims) (oracle : String → Except String RefreshResponse)
    (now : Int) (req : Request) (st : Store)
    (hok : ∀ rt, ∃ resp, oracle rt = .ok resp ∧ 60 < resp.expires_in) :
    (getDelegatedToken decode oracle now req
        (getDelegatedToken decode oracle now req st).store).result =
      (getDelegatedToken decode oracle now req st).result := by
  cases hA : extractAccessToken req with
  | none => simp [getDelegatedToken, hA]
  | some a =>
    cases hExp : isTokenExpired decode now a with
    | true =>
      cases hR : extractRefreshToken req with
      | some rt =>
        obtain ⟨resp, ho, hgt⟩ := hok rt
        simp [getDelegatedToken, hA, hR, hExp, refreshAccessToken, ho]
      | none =>
        cases hc : cacheGet st.mem (getUserIdFromToken decode a) with
        | none =>
          simp [getDelegatedToken, hA, hR, hExp, dtAfterImmediate, hc, dtCacheNew]
        | some cd =>
          by_cases hv : now < cd.expiresAt
          · simp [getDelegatedToken, hA, hR, hExp, dtAfterImmediate, hc, hv]
          · cases hto : truthy (some cd.refreshToken) with
            | none =>
              simp [getDelegatedToken, hA, hR, hExp, dtAfterImmediate, hc, hv, Option.orElse,
                hto, dtCacheNew]
            | some t =>
              obtain ⟨resp, ho, hgt⟩ := hok t
              have hlt : now < now + (resp.expires_in - 60) * 1000 := by omega
              simp [getDelegatedToken, hA, hR, hExp, dtAfterImmediate, hc, hv, Option.orElse,
                hto, refreshAccessToken, ho, saveTokenCache, cacheGet_cacheSet_self, hlt]
    | false =>
      cases hR : extractRefreshToken req with
      | some rt =>
        cases hc : cacheGet st.mem (getUserIdFromToken decode a) with
        | none =>
          have hlt : now < now + 55 * 60 * 1000 := by omega
          simp [getDelegatedToken, hA, hR, hExp, dtAfterImmediate, hc, dtCacheNew,
            saveTokenCache, cacheGet_cacheSet_self, hlt]
        | some cd =>
          by_cases hv : now < cd.expiresAt
          · simp [getDelegatedToken, hA, hR, hExp, dtAfterImmediate, hc, hv]
          · obtain ⟨resp, ho, hgt⟩ := hok rt
            have hlt : now < now + (resp.expires_in - 60) * 1000 := by omega
            simp [getDelegatedToken, hA, hR, hExp, dtAfterImmediate, hc, hv, Option.orElse,
              refreshAccessToken, ho, saveTokenCache, cacheGet_cacheSet_self, hlt]
      | none =>
        cases hc : cacheGet st.mem (getUserIdFromToken decode a) with
        | none =>
          simp [getDelegatedToken, hA, hR, hExp, dtAfterImmediate, hc, dtCacheNew]
        | some cd =>
          by_cases hv : now < cd.expiresAt
          · simp [getDelegatedToken, hA, hR, hExp, dtAfterImmediate, hc, hv]
          · cases hto : truthy (some cd.refreshToken) with
            | none =>
              simp [getDelegatedToken, hA, hR, hExp, dtAfterImmediate, hc, hv, Option.orElse,
                hto, dtCacheNew]
            | some t =>
              obtain ⟨resp, ho, hgt⟩ := hok t
              have hlt : now < now + (resp.expires_in - 60) * 1000 := by omega
              simp [getDelegatedToken, hA, hR, hExp, dtAfterImmediate, hc, hv, Option.orElse,
                hto, refreshAccessToken, ho, saveTokenCache, cacheGet_cacheSet_self, hlt]

/-- Witness for the amended C5: with the always-succeeding one-hour refresh
endpoint, the double call on the expired-token request returns the same
result as the single call. -/
theorem obtain_idempotent_when_refreshes_outlive_margin_witness :
    (∀ rt, ∃ resp, exOracleOk rt = .ok resp ∧ 60 < resp.expires_in) ∧
    (getDelegatedToken exDecode exOracleOk 10000 exReqImm
        (getDelegatedToken exDecode exOracleOk 10000 exReqImm exStoreU1).store).result =
      (getDelegatedToken exDecode exOracleOk 10000 exReqImm exStoreU1).result := by
  have hok : ∀ rt, ∃ resp, exOracleOk rt = .ok resp ∧ 60 < resp.expires_in := by
    intro rt
    by_cases h : rt = "R1"
    · exact ⟨{ access_token := "A-fresh", refresh_token := some "R2", expires_in := 3600 },
        by simp [exOracleOk, h], by decide⟩
    · exact ⟨{ access_token := "A-other", refresh_token := none, expires_in := 3600 },
        by simp [exOracleOk, h], by decide⟩
  exact ⟨hok,
    obtain_idempotent_when_refreshes_outlive_margin exDecode exOracleOk 10000 exReqImm
      exStoreU1 hok⟩
